import Mathlib

/-!
Shallow embedding of `server.js` from the pepe-tracker repository.

JavaScript numbers are modelled as exact rationals (`ℚ`): every quantity the
claims mention (token deltas, lamport deltas, prices) is produced by exact
arithmetic on the inputs in the source.  Nullable JS values are `Option`s,
thrown JS errors are `Except.error`, and the process-global mutable state
(`tradeHistory`, `tradeIdCounter`, `holdersCache`) is passed explicitly.
-/

namespace PepeTracker

/-! ## Configuration constants (server.js, CONFIG section) -/

def XNT_MINT : String := "So11111111111111111111111111111111111111112"

def PEPE_MINT : String := "81LkybSBLvXYMTF6azXohUWyBvDGUXznm4yiXPkYkDTJ"

/-! ## Transaction model (the shape `parseSwapFromTransaction` reads) -/

/-- One entry of `meta.preTokenBalances` / `meta.postTokenBalances`.
`uiAmount` stands for the JS path `entry.uiTokenAmount?.uiAmount`; a `none`
covers both a missing `uiTokenAmount` object and a `null` `uiAmount`
(the source reads it as `pre.uiTokenAmount?.uiAmount ?? 0`). -/
structure TokenBalance where
  accountIndex : Nat
  mint : String
  owner : Option String
  uiAmount : Option ℚ
deriving DecidableEq, Repr

/-- The `tx.meta` object: SPL token balance tables plus per-account-key
lamport balances. -/
structure TxMeta where
  preTokenBalances : List TokenBalance
  postTokenBalances : List TokenBalance
  preBalances : List Int
  postBalances : List Int
deriving DecidableEq, Repr

structure TxMessage where
  accountKeys : List String
deriving DecidableEq, Repr

structure TxTransaction where
  message : TxMessage
  signatures : List String
deriving DecidableEq, Repr

/-- A parsed transaction as consumed by `parseSwapFromTransaction`.
`meta = none` models a JS `null` meta (the `!tx.meta` early return);
`blockTime = none` models a missing block time. -/
structure Tx where
  transaction : TxTransaction
  meta : Option TxMeta
  blockTime : Option Int
  slot : Nat
  signatures : List String
deriving DecidableEq, Repr

/-- The trade record built at the end of `parseSwapFromTransaction`. -/
structure Trade where
  id : Nat
  signature : String
  trade_type : String
  token_amount : ℚ
  native_amount : ℚ
  price : Option ℚ
  trader_address : String
  trader_prefix : String
  timestamp : Int
  slot : Nat
deriving DecidableEq, Repr

/-! ## Helpers shared by the inferrer -/

/-- JS `a || b` on two nullable strings: the empty string is falsy. -/
def jsOrStr (a b : Option String) : Option String :=
  match a with
  | some s => if s = "" then b else some s
  | none => b

/-- JS `a || b` where the fallback is a plain string. -/
def jsOrString (a : Option String) (b : String) : String :=
  match a with
  | some s => if s = "" then b else s
  | none => b

/-- JS `String(accountKeys?.[0])`: the trader is the first account key; an
empty key list gives JS `String(undefined) = "undefined"`. -/
def traderAddressOf (accountKeys : List String) : String :=
  (accountKeys.head?).getD "undefined"

/-- The `postByIndex` JS `Map`: built by successive `set` calls over the
post-token-balance list, so the last entry with a given index wins. -/
def postLookup (postToken : List TokenBalance) (i : Nat) : Option TokenBalance :=
  (postToken.filter (fun p => p.accountIndex == i)).getLast?

/-- Contribution of a single pre-token-balance entry to the trader-owned
delta of `mint`, mirroring the loop body in `parseSwapFromTransaction`:
skip when no post entry shares the `accountIndex`, when the effective owner
(`pre.owner || post.owner`) is falsy or differs from the trader, or when
the entry's mint is not the tracked one. -/
def tokenEntryDelta (mint trader : String) (postToken : List TokenBalance)
    (pre : TokenBalance) : ℚ :=
  match postLookup postToken pre.accountIndex with
  | none => 0
  | some post =>
    match jsOrStr pre.owner post.owner with
    | none => 0
    | some o =>
      if o = "" then 0
      else if o ≠ trader then 0
      else if pre.mint = mint then
        (post.uiAmount.getD 0) - (pre.uiAmount.getD 0)
      else 0

/-- The summed trader-owned SPL delta for one mint (the loop computing
`pepeChange` / `xntTokenChange`). -/
def splMintChange (mint trader : String)
    (preToken postToken : List TokenBalance) : ℚ :=
  (preToken.map (tokenEntryDelta mint trader postToken)).sum

/-- Step 3 of the inferrer: raw lamport delta at the trader's own index in
the account-key list, scaled by 1e9; zero when the trader's index is not
found or either balance array lacks that index (`!= null` checks). -/
def nativeLamportChange (accountKeys : List String) (trader : String)
    (preBalances postBalances : List Int) : ℚ :=
  match accountKeys.findIdx? (fun k => k = trader) with
  | none => 0
  | some i =>
    match preBalances.get? i, postBalances.get? i with
    | some p, some q => ((q - p : Int) : ℚ) / 1000000000
    | _, _ => 0

/-! ## The Balance-Delta Trade Inferrer -/

/-- Function `parseSwapFromTransaction` from server.js.  The process-global
`tradeIdCounter` is passed as `idCounter` (the source does
`tradeIdCounter++` when building the record) and `Date.now()` as `now`
(used when `tx.blockTime` is falsy). -/
def parseSwapFromTransaction (idCounter : Nat) (now : Int) (tx : Tx) : Option Trade :=
  match tx.meta with
  | none => none
  | some meta =>
    let traderAddress := traderAddressOf tx.transaction.message.accountKeys
    let pepeChange :=
      splMintChange PEPE_MINT traderAddress meta.preTokenBalances meta.postTokenBalances
    if pepeChange = 0 then none
    else
      let xntTokenChange :=
        splMintChange XNT_MINT traderAddress meta.preTokenBalances meta.postTokenBalances
      let xntNativeChange :=
        nativeLamportChange tx.transaction.message.accountKeys traderAddress
          meta.preBalances meta.postBalances
      let xntChange := if xntTokenChange = 0 then xntNativeChange else xntTokenChange
      if xntChange = 0 then none
      else
        let tradeType : Option String :=
          if pepeChange < 0 ∧ xntChange < 0 then some "lp_add"
          else if 0 < pepeChange ∧ 0 < xntChange then some "lp_remove"
          else if 0 < pepeChange ∧ xntChange < 0 then some "buy"
          else if pepeChange < 0 ∧ 0 < xntChange then some "sell"
          else none
        match tradeType with
        | none => none
        | some tt =>
          let sig := jsOrString tx.transaction.signatures.head?
            (jsOrString tx.signatures.head? "unknown_signature")
          let ts : Int :=
            match tx.blockTime with
            | some bt => if bt = 0 then now else bt * 1000
            | none => now
          let pepeAbs := |pepeChange|
          let xntAbs := |xntChange|
          some {
            id := idCounter
            signature := sig
            trade_type := tt
            token_amount := pepeAbs
            native_amount := xntAbs
            price := if tt = "buy" ∨ tt = "sell" then some (xntAbs / pepeAbs) else none
            trader_address := traderAddress
            trader_prefix := traderAddress.take 6
            timestamp := ts
            slot := tx.slot }

/-! ## Observation functions on a transaction (the inferrer's intermediate
quantities, as functions of the input; `0` when `meta` is absent, in which
case the inferrer returns no trade anyway) -/

/-- Source variable `pepeChange`: net trader-owned delta of the tracked secondary asset. -/
def assetChangeOf (tx : Tx) : ℚ :=
  match tx.meta with
  | none => 0
  | some meta =>
    splMintChange PEPE_MINT (traderAddressOf tx.transaction.message.accountKeys)
      meta.preTokenBalances meta.postTokenBalances

/-- Source variable `xntTokenChange`: SPL-token-balance-derived delta of the base asset. -/
def xntTokenChangeOf (tx : Tx) : ℚ :=
  match tx.meta with
  | none => 0
  | some meta =>
    splMintChange XNT_MINT (traderAddressOf tx.transaction.message.accountKeys)
      meta.preTokenBalances meta.postTokenBalances

/-- Source variable `xntNativeChange`: raw lamport delta at the trader's account index. -/
def xntNativeChangeOf (tx : Tx) : ℚ :=
  match tx.meta with
  | none => 0
  | some meta =>
    nativeLamportChange tx.transaction.message.accountKeys
      (traderAddressOf tx.transaction.message.accountKeys)
      meta.preBalances meta.postBalances

/-- Source variable `xntChange`: the base-asset delta the inferrer classifies with. -/
def xntChangeOf (tx : Tx) : ℚ :=
  if xntTokenChangeOf tx = 0 then xntNativeChangeOf tx else xntTokenChangeOf tx

/-- The trader address the inferrer derives from the transaction. -/
def traderOf (tx : Tx) : String :=
  traderAddressOf tx.transaction.message.accountKeys

/-- The signature string the inferrer derives (first available, else the
"unknown_signature" sentinel). -/
def sigOf (tx : Tx) : String :=
  jsOrString tx.transaction.signatures.head?
    (jsOrString tx.signatures.head? "unknown_signature")

/-- The millisecond timestamp the inferrer derives (`blockTime * 1000`, or
`now` when block time is absent or zero — a falsy JS `blockTime`). -/
def tsOf (now : Int) (tx : Tx) : Int :=
  match tx.blockTime with
  | some bt => if bt = 0 then now else bt * 1000
  | none => now

/-- The sign-pair classification table of step 5, as a total function on a
pair of nonzero deltas (the final branch is the `sell` case). -/
def classifyOf (a b : ℚ) : String :=
  if a < 0 ∧ b < 0 then "lp_add"
  else if 0 < a ∧ 0 < b then "lp_remove"
  else if 0 < a ∧ b < 0 then "buy"
  else "sell"

/-! ## Retry/Backoff Wrapper (`withRetry`) -/

/-- Substring test on character lists (JS `String.prototype.includes`). -/
def listContainsSub (pat : List Char) : List Char → Bool
  | [] => pat.isEmpty
  | c :: rest => pat.isPrefixOf (c :: rest) || listContainsSub pat rest

/-- The rate-limit classification in `withRetry`:
`msg.includes("429") || msg.includes("Too Many Requests")`. -/
def is429 (msg : String) : Bool :=
  listContainsSub "429".toList msg.toList || listContainsSub "Too Many Requests".toList msg.toList

/-- The `while (true)` loop of `withRetry`.  The operation is modelled as a
function from the attempt number to its outcome; the result is paired with
the list of backoff delays slept (in order), so the retry schedule is
observable.  `remaining = retries - attempt` conversely bounds the loop:
the JS guard `attempt >= retries` is `remaining = 0` here. -/
def withRetryGo {α : Type} (fn : Nat → Except String α) (baseDelayMs : Nat) :
    Nat → Nat → Except String α × List Nat
  | attempt, 0 =>
    match fn attempt with
    | Except.ok a => (Except.ok a, [])
    | Except.error e => (Except.error e, [])
  | attempt, r + 1 =>
    match fn attempt with
    | Except.ok a => (Except.ok a, [])
    | Except.error e =>
      if is429 e then
        let rest := withRetryGo fn baseDelayMs (attempt + 1) r
        (rest.1, baseDelayMs * 2 ^ attempt :: rest.2)
      else (Except.error e, [])

/-- Source call `withRetry(fn)` with the default options `retries = 6`,
`baseDelayMs = 500` (every call site in the source uses the defaults). -/
def withRetry {α : Type} (fn : Nat → Except String α) : Except String α × List Nat :=
  withRetryGo fn 500 0 6

/-! ## Broadcast Hub (`broadcastTrade`): the trade-history buffer update.
The SSE fan-out to subscribers is I/O and does not touch the buffer. -/

/-- Source statement `tradeHistory.unshift(trade)` followed by
`if (tradeHistory.length > 8000) tradeHistory = tradeHistory.slice(0, 8000)`. -/
def broadcastTrade (tradeHistory : List Trade) (trade : Trade) : List Trade :=
  let h := trade :: tradeHistory
  if 8000 < h.length then h.take 8000 else h

/-! ## Holder-Count Aggregator (`getToken2022HoldersCached`) -/

/-- Function `readU64LE`: little-endian u64 from the first 8 bytes of a data slice
(missing bytes read as 0). -/
def readU64LE (buf : List Nat) : Nat :=
  (List.range 8).foldl (fun n i => n ||| (buf.getD i 0) <<< (8 * i)) 0

/-- The in-memory `holdersCache` record. -/
structure HoldersCache where
  mint : Option String
  holders : Nat
  totalTokenAccounts : Nat
  zeroBalanceAccounts : Nat
  updatedAt : Int
deriving DecidableEq, Repr

/-- The RPC boundary the aggregator reads: whether the mint account exists
(`getAccountInfo`), and the 8-byte amount slices of the program accounts
filtered by that mint (`getProgramAccounts` with `dataSlice` at offset 64). -/
structure Chain where
  mintExists : String → Bool
  programAccounts : String → List (List Nat)

def HOLDERS_CACHE_TTL_MS : Int := 10 * 60 * 1000

/-- The recomputation branch: scan the filtered program accounts, classify
each 8-byte amount as holder (`amt > 0`) or zero-balance. -/
def recomputeHolders (chain : Chain) (now : Int) (mintStr : String) : HoldersCache :=
  let accounts := chain.programAccounts mintStr
  { mint := some mintStr
    holders := (accounts.filter (fun b => 0 < readU64LE b)).length
    totalTokenAccounts := accounts.length
    zeroBalanceAccounts := (accounts.filter (fun b => readU64LE b = 0)).length
    updatedAt := now }

/-- Function `getToken2022HoldersCached(mintStr)`: cache hit iff the cached mint
matches and the age is within TTL; otherwise fail if the mint account does
not exist, else recompute.  The returned cache is also the new value of the
global `holdersCache`. -/
def getToken2022HoldersCached (chain : Chain) (now : Int) (cache : HoldersCache)
    (mintStr : String) : Except String HoldersCache :=
  if cache.mint = some mintStr ∧ now - cache.updatedAt < HOLDERS_CACHE_TTL_MS then
    Except.ok cache
  else if chain.mintExists mintStr = false then
    Except.error "Mint account not found on this RPC/network."
  else
    Except.ok (recomputeHolders chain now mintStr)

/-! ## Historical Backfill Pipeline: the per-transaction loop of
`fetchHistoricalTrades`.  Each list element is the outcome of the
`getParsedTransaction` fetch for one signature: `none` when the fetch threw
(caught and skipped) or returned null. -/

structure BackfillState where
  parsedTrades : List Trade
  processed : Nat
  tradeIdCounter : Nat
  sleeps : Nat
deriving DecidableEq, Repr

/-- One iteration of the `for (const sig of signatures)` loop: skip missing
transactions and no-trade transactions; otherwise push the trade, bump
`processed`, and sleep 120ms when `processed % 25 === 0`. -/
def backfillStep (now : Int) (st : BackfillState) (otx : Option Tx) : BackfillState :=
  match otx with
  | none => st
  | some tx =>
    match parseSwapFromTransaction st.tradeIdCounter now tx with
    | none => st
    | some trade =>
      { parsedTrades := st.parsedTrades ++ [trade]
        processed := st.processed + 1
        tradeIdCounter := st.tradeIdCounter + 1
        sleeps := if (st.processed + 1) % 25 = 0 then st.sleeps + 1 else st.sleeps }

def runBackfillLoop (now : Int) (txs : List (Option Tx)) (st : BackfillState) : BackfillState :=
  txs.foldl (backfillStep now) st

/-- Loop state at entry: no trades parsed, `processed = 0`, no sleeps; the
global `tradeIdCounter` starts at 1. -/
def initialBackfillState : BackfillState := ⟨[], 0, 1, 0⟩

/-! ## Concrete inputs used by the witnesses -/

def mkTB (i : Nat) (m : String) (o : Option String) (a : Option ℚ) : TokenBalance :=
  ⟨i, m, o, a⟩

/-- The §8 scenario 8 transaction: trader-owned PEPE balance 1000 → 1200,
trader lamports 5e9 → 4e9, no SPL base-asset entries. -/
def txC3 : Tx :=
  ⟨⟨⟨["TraderPubkey111"]⟩, ["sigC3"]⟩,
   some ⟨[mkTB 1 PEPE_MINT (some "TraderPubkey111") (some 1000)],
         [mkTB 1 PEPE_MINT (some "TraderPubkey111") (some 1200)],
         [5000000000], [4000000000]⟩,
   some 111, 5, []⟩

/-- Both trader-owned deltas negative: PEPE 100 → 90, SPL XNT 50 → 45. -/
def txLpAdd : Tx :=
  ⟨⟨⟨["AdderKey11"]⟩, ["sigAdd"]⟩,
   some ⟨[mkTB 1 PEPE_MINT (some "AdderKey11") (some 100),
          mkTB 2 XNT_MINT (some "AdderKey11") (some 50)],
         [mkTB 1 PEPE_MINT (some "AdderKey11") (some 90),
          mkTB 2 XNT_MINT (some "AdderKey11") (some 45)],
         [3000000000], [3000000000]⟩,
   some 70, 2, []⟩

/-- A transaction with no trader-owned token-balance entries at all: the
tracked-asset delta is zero whatever the lamport deltas say. -/
def txNoTrade : Tx :=
  ⟨⟨⟨["SomeoneKey"]⟩, ["sigNone"]⟩,
   some ⟨[], [], [9000000000], [2000000000]⟩,
   some 40, 3, []⟩

/-- PEPE delta +200 but no base-asset movement: SPL XNT delta 0 and equal
pre/post lamports, so both base deltas vanish. -/
def txZeroBase : Tx :=
  ⟨⟨⟨["StuckKey77"]⟩, ["sigZero"]⟩,
   some ⟨[mkTB 1 PEPE_MINT (some "StuckKey77") (some 100)],
         [mkTB 1 PEPE_MINT (some "StuckKey77") (some 300)],
         [7000000000], [7000000000]⟩,
   some 50, 4, []⟩

/-- A sell: PEPE 500 → 480 (delta −20), SPL XNT 10 → 14 (delta +4). -/
def txSell : Tx :=
  ⟨⟨⟨["SellerKey9"]⟩, ["sigSell"]⟩,
   some ⟨[mkTB 1 PEPE_MINT (some "SellerKey9") (some 500),
          mkTB 2 XNT_MINT (some "SellerKey9") (some 10)],
         [mkTB 1 PEPE_MINT (some "SellerKey9") (some 480),
          mkTB 2 XNT_MINT (some "SellerKey9") (some 14)],
         [1000000000], [1000000000]⟩,
   some 7, 9, []⟩

/-- The trade the inferrer builds from `txSell` with id counter 4. -/
def tradeSell : Trade :=
  ⟨4, "sigSell", "sell", 20, 4, some (1/5), "SellerKey9", "SellerKey9".take 6, 7000, 9⟩

/-- An LP removal: PEPE 10 → 40 (delta +30), SPL XNT 1 → 7 (delta +6). -/
def txLpRemove : Tx :=
  ⟨⟨⟨["RemoverKey5"]⟩, ["sigRem"]⟩,
   some ⟨[mkTB 1 PEPE_MINT (some "RemoverKey5") (some 10),
          mkTB 2 XNT_MINT (some "RemoverKey5") (some 1)],
         [mkTB 1 PEPE_MINT (some "RemoverKey5") (some 40),
          mkTB 2 XNT_MINT (some "RemoverKey5") (some 7)],
         [1000000000], [1000000000]⟩,
   some 8, 12, []⟩

/-- The trade the inferrer builds from `txLpRemove` with id counter 5. -/
def tradeLpRemove : Trade :=
  ⟨5, "sigRem", "lp_remove", 30, 6, none, "RemoverKey5", "RemoverKey5".take 6, 8000, 12⟩

/-- A fallible operation that rate-limits twice and then succeeds. -/
def fnRateLimited : Nat → Except String Nat :=
  fun k => if k < 2 then Except.error "429 Too Many Requests" else Except.ok 7

/-- A chain for the holder-cache witness: the mint "M1" exists and owns
three filtered accounts with amounts 3, 0 and 1 (little-endian bytes). -/
def chainEx : Chain :=
  ⟨fun m => m = "M1", fun _ => [[3,0,0,0,0,0,0,0], [0,0,0,0,0,0,0,0], [1,0,0,0,0,0,0,0]]⟩

/-- The empty holders cache at process start. -/
def emptyHoldersCache : HoldersCache := ⟨none, 0, 0, 0, 0⟩

/-- A matched pre/post pair of token-balance lists (one entry, index 1). -/
def preW : List TokenBalance := [mkTB 1 PEPE_MINT (some "W") (some 5)]

def postW : List TokenBalance := [mkTB 1 PEPE_MINT (some "W") (some 8)]

/-- A trader-owned entry appearing only in the pre list (index 7). -/
def entryPreOnly : TokenBalance := mkTB 7 PEPE_MINT (some "W") (some 555)

/-- A trader-owned entry appearing only in the post list (index 9), as for
a token account created during the transaction. -/
def entryPostOnly : TokenBalance := mkTB 9 PEPE_MINT (some "W") (some 777)

/-! # Theorems -/

/-- Characterization of the inferrer: it returns no trade exactly when the
tracked-asset delta or the chosen base delta is zero, and otherwise the
trade record is determined by the observation functions. -/
theorem parse_spec (c : Nat) (now : Int) (tx : Tx) :
    parseSwapFromTransaction c now tx =
      if assetChangeOf tx = 0 ∨ xntChangeOf tx = 0 then none
      else some ⟨c, sigOf tx, classifyOf (assetChangeOf tx) (xntChangeOf tx),
        |assetChangeOf tx|, |xntChangeOf tx|,
        if classifyOf (assetChangeOf tx) (xntChangeOf tx) = "buy" ∨
           classifyOf (assetChangeOf tx) (xntChangeOf tx) = "sell"
          then some (|xntChangeOf tx| / |assetChangeOf tx|) else none,
        traderOf tx, (traderOf tx).take 6, tsOf now tx, tx.slot⟩ := by
  obtain ⟨tr, meta, bt, slot, sigs⟩ := tx
  cases meta with
  | none =>
    simp [parseSwapFromTransaction, assetChangeOf]
  | some m =>
    simp only [parseSwapFromTransaction, assetChangeOf, xntChangeOf, xntTokenChangeOf,
      xntNativeChangeOf, traderOf, sigOf, tsOf, classifyOf]
    by_cases h1 : splMintChange PEPE_MINT (traderAddressOf tr.message.accountKeys)
        m.preTokenBalances m.postTokenBalances = 0
    · simp [h1]
    · by_cases h2 : (if splMintChange XNT_MINT (traderAddressOf tr.message.accountKeys)
          m.preTokenBalances m.postTokenBalances = 0 then
            nativeLamportChange tr.message.accountKeys (traderAddressOf tr.message.accountKeys)
              m.preBalances m.postBalances
          else splMintChange XNT_MINT (traderAddressOf tr.message.accountKeys)
            m.preTokenBalances m.postTokenBalances) = 0
      · simp [h1, h2]
      · simp only [h1, h2, if_neg, if_false, or_self, ite_false]
        rcases lt_trichotomy (splMintChange PEPE_MINT (traderAddressOf tr.message.accountKeys)
            m.preTokenBalances m.postTokenBalances) 0 with ha | ha | ha
        · rcases lt_trichotomy (if splMintChange XNT_MINT (traderAddressOf tr.message.accountKeys)
              m.preTokenBalances m.postTokenBalances = 0 then
                nativeLamportChange tr.message.accountKeys (traderAddressOf tr.message.accountKeys)
                  m.preBalances m.postBalances
              else splMintChange XNT_MINT (traderAddressOf tr.message.accountKeys)
                m.preTokenBalances m.postTokenBalances) 0 with hb | hb | hb
          · simp [ha, hb, asymm ha, asymm hb]
          · exact absurd hb h2
          · simp [ha, hb, asymm ha, asymm hb, not_lt.2 ha.le, not_lt.2 hb.le]
        · exact absurd ha h1
        · rcases lt_trichotomy (if splMintChange XNT_MINT (traderAddressOf tr.message.accountKeys)
              m.preTokenBalances m.postTokenBalances = 0 then
                nativeLamportChange tr.message.accountKeys (traderAddressOf tr.message.accountKeys)
                  m.preBalances m.postBalances
              else splMintChange XNT_MINT (traderAddressOf tr.message.accountKeys)
                m.preTokenBalances m.postTokenBalances) 0 with hb | hb | hb
          · simp [ha, hb, asymm ha, asymm hb, not_lt.2 ha.le, not_lt.2 hb.le]
          · exact absurd hb h2
          · simp [ha, hb, asymm ha, asymm hb, not_lt.2 ha.le, not_lt.2 hb.le]

/-! ### Evaluation lemmas for the concrete transactions -/

theorem assetChange_txC3_eval : assetChangeOf txC3 = 200 := by
  simp [assetChangeOf, txC3, mkTB, splMintChange, tokenEntryDelta, postLookup,
    traderAddressOf, jsOrStr, PEPE_MINT, XNT_MINT, List.filter] <;> norm_num

theorem xntChange_txC3_eval : xntChangeOf txC3 = -1 := by
  simp [xntChangeOf, xntTokenChangeOf, xntNativeChangeOf, txC3, mkTB, splMintChange,
    tokenEntryDelta, postLookup, traderAddressOf, jsOrStr, PEPE_MINT, XNT_MINT,
    List.filter, nativeLamportChange, List.findIdx?_cons] <;> norm_num

theorem assetChange_txLpAdd_eval : assetChangeOf txLpAdd = -10 := by
  simp [assetChangeOf, txLpAdd, mkTB, splMintChange, tokenEntryDelta, postLookup,
    traderAddressOf, jsOrStr, PEPE_MINT, XNT_MINT, List.filter] <;> norm_num

theorem xntChange_txLpAdd_eval : xntChangeOf txLpAdd = -5 := by
  simp [xntChangeOf, xntTokenChangeOf, xntNativeChangeOf, txLpAdd, mkTB, splMintChange,
    tokenEntryDelta, postLookup, traderAddressOf, jsOrStr, PEPE_MINT, XNT_MINT,
    List.filter, nativeLamportChange, List.findIdx?_cons] <;> norm_num

theorem assetChange_txNoTrade_eval : assetChangeOf txNoTrade = 0 := by
  simp [assetChangeOf, txNoTrade, splMintChange] <;> norm_num

theorem assetChange_txZeroBase_eval : assetChangeOf txZeroBase = 200 := by
  simp [assetChangeOf, txZeroBase, mkTB, splMintChange, tokenEntryDelta, postLookup,
    traderAddressOf, jsOrStr, PEPE_MINT, XNT_MINT, List.filter] <;> norm_num

theorem xntChange_txZeroBase_eval : xntChangeOf txZeroBase = 0 := by
  simp [xntChangeOf, xntTokenChangeOf, xntNativeChangeOf, txZeroBase, mkTB, splMintChange,
    tokenEntryDelta, postLookup, traderAddressOf, jsOrStr, PEPE_MINT, XNT_MINT,
    List.filter, nativeLamportChange, List.findIdx?_cons] <;> norm_num

theorem assetChange_txSell_eval : assetChangeOf txSell = -20 := by
  simp [assetChangeOf, txSell, mkTB, splMintChange, tokenEntryDelta, postLookup,
    traderAddressOf, jsOrStr, PEPE_MINT, XNT_MINT, List.filter] <;> norm_num

theorem xntChange_txSell_eval : xntChangeOf txSell = 4 := by
  simp [xntChangeOf, xntTokenChangeOf, xntNativeChangeOf, txSell, mkTB, splMintChange,
    tokenEntryDelta, postLookup, traderAddressOf, jsOrStr, PEPE_MINT, XNT_MINT,
    List.filter, nativeLamportChange, List.findIdx?_cons] <;> norm_num

theorem assetChange_txLpRemove_eval : assetChangeOf txLpRemove = 30 := by
  simp [assetChangeOf, txLpRemove, mkTB, splMintChange, tokenEntryDelta, postLookup,
    traderAddressOf, jsOrStr, PEPE_MINT, XNT_MINT, List.filter] <;> norm_num

theorem xntChange_txLpRemove_eval : xntChangeOf txLpRemove = 6 := by
  simp [xntChangeOf, xntTokenChangeOf, xntNativeChangeOf, txLpRemove, mkTB, splMintChange,
    tokenEntryDelta, postLookup, traderAddressOf, jsOrStr, PEPE_MINT, XNT_MINT,
    List.filter, nativeLamportChange, List.findIdx?_cons] <;> norm_num

/-! ### Claim theorems: the Balance-Delta Trade Inferrer -/

/-- C1: for every transaction that reaches the classification step (both
the tracked secondary-asset delta and the chosen base-asset delta are
nonzero), the resulting trade type is determined exactly by the sign pair:
both negative gives lp_add, both positive gives lp_remove, asset positive
with base negative gives buy, asset negative with base positive gives sell.
(With both deltas nonzero these four cases are exhaustive; the
combinations outside the table — either delta zero — are rejected before
classification, see the zero-delta claim theorems.) -/
theorem inferrer_classification_table (c : Nat) (now : Int) (tx : Tx)
    (ha : assetChangeOf tx ≠ 0) (hb : xntChangeOf tx ≠ 0) :
    (parseSwapFromTransaction c now tx).map Trade.trade_type =
      some (if assetChangeOf tx < 0 ∧ xntChangeOf tx < 0 then "lp_add"
            else if 0 < assetChangeOf tx ∧ 0 < xntChangeOf tx then "lp_remove"
            else if 0 < assetChangeOf tx ∧ xntChangeOf tx < 0 then "buy"
            else "sell") := by
  rw [parse_spec]
  simp [ha, hb, classifyOf]

/-- Witness for the classification theorem at a concrete LP-add
transaction (PEPE delta −10, base delta −5). -/
theorem inferrer_classification_table_witness :
    (parseSwapFromTransaction 1 0 txLpAdd).map Trade.trade_type =
      some (if assetChangeOf txLpAdd < 0 ∧ xntChangeOf txLpAdd < 0 then "lp_add"
            else if 0 < assetChangeOf txLpAdd ∧ 0 < xntChangeOf txLpAdd then "lp_remove"
            else if 0 < assetChangeOf txLpAdd ∧ xntChangeOf txLpAdd < 0 then "buy"
            else "sell") :=
  inferrer_classification_table 1 0 txLpAdd
    (by rw [assetChange_txLpAdd_eval]; norm_num)
    (by rw [xntChange_txLpAdd_eval]; norm_num)

/-- C2: whenever the net trader-owned delta of the tracked secondary asset
(the sum the inferrer computes over the paired token-balance entries owned
by the trader) is exactly zero, the inferrer returns no trade, regardless
of any base-asset delta. -/
theorem inferrer_zero_asset_no_trade (c : Nat) (now : Int) (tx : Tx)
    (h : assetChangeOf tx = 0) :
    parseSwapFromTransaction c now tx = none := by
  rw [parse_spec]
  simp [h]

/-- Witness: a transaction with no trader-owned token-balance entries (so
tracked-asset delta 0) but a large native lamport delta yields no trade. -/
theorem inferrer_zero_asset_no_trade_witness :
    parseSwapFromTransaction 3 0 txNoTrade = none :=
  inferrer_zero_asset_no_trade 3 0 txNoTrade assetChange_txNoTrade_eval

/-- C3: the inferrer prefers the SPL-token-balance-derived base delta and
falls back to the scaled native lamport delta only when the former is
exactly zero; when the chosen delta is zero it returns no trade, and every
produced trade's native amount is the magnitude of the chosen delta.  The
last conjunct is the concrete scenario: tracked-asset delta +200 with
lamport delta −1e9 (no SPL base entries) yields a buy of 200 tokens for 1
native unit at price 0.005. -/
theorem inferrer_base_delta_preference (c : Nat) (now : Int) (tx : Tx) :
    xntChangeOf tx =
      (if xntTokenChangeOf tx = 0 then xntNativeChangeOf tx else xntTokenChangeOf tx) ∧
    (xntChangeOf tx = 0 → parseSwapFromTransaction c now tx = none) ∧
    (∀ t, parseSwapFromTransaction c now tx = some t → t.native_amount = |xntChangeOf tx|) ∧
    (∃ t, parseSwapFromTransaction 1 0 txC3 = some t ∧ t.trade_type = "buy" ∧
      t.token_amount = 200 ∧ t.native_amount = 1 ∧ t.price = some 0.005) := by
  refine ⟨rfl, ?_, ?_, ?_⟩
  · intro h
    rw [parse_spec]
    simp [h]
  · intro t h
    rw [parse_spec] at h
    by_cases hc : assetChangeOf tx = 0 ∨ xntChangeOf tx = 0
    · simp [hc] at h
    · simp only [hc, if_false, ite_false, Option.some.injEq] at h
      subst h
      rfl
  · have hp := parse_spec 1 0 txC3
    rw [assetChange_txC3_eval, xntChange_txC3_eval] at hp
    norm_num [classifyOf] at hp
    exact ⟨_, hp, rfl, rfl, rfl, by norm_num⟩

/-- Witness: a transaction whose SPL base delta and native lamport delta
are both zero (tracked-asset delta +200) yields no trade. -/
theorem inferrer_base_delta_preference_witness :
    parseSwapFromTransaction 2 0 txZeroBase = none :=
  (inferrer_base_delta_preference 2 0 txZeroBase).2.1 xntChange_txZeroBase_eval

/-- C4: a produced trade's price field is populated exactly when the trade
type is buy or sell, and then it equals native_amount / token_amount; for
lp_add and lp_remove it is null. -/
theorem trade_price_iff_swap (c : Nat) (now : Int) (tx : Tx) (t : Trade)
    (h : parseSwapFromTransaction c now tx = some t) :
    t.price = if t.trade_type = "buy" ∨ t.trade_type = "sell"
      then some (t.native_amount / t.token_amount) else none := by
  rw [parse_spec] at h
  by_cases hc : assetChangeOf tx = 0 ∨ xntChangeOf tx = 0
  · simp [hc] at h
  · simp only [hc, if_false, ite_false, Option.some.injEq] at h
    subst h
    rfl

/-- Witness for the price claim at a concrete sell (price 4/20 = 1/5). -/
theorem trade_price_iff_swap_witness :
    tradeSell.price = if tradeSell.trade_type = "buy" ∨ tradeSell.trade_type = "sell"
      then some (tradeSell.native_amount / tradeSell.token_amount) else none :=
  trade_price_iff_swap 4 0 txSell tradeSell (by
    have hp := parse_spec 4 0 txSell
    rw [assetChange_txSell_eval, xntChange_txSell_eval] at hp
    norm_num [classifyOf, sigOf, tsOf, traderOf, traderAddressOf, jsOrString, txSell,
      tradeSell] at hp ⊢
    exact hp)

/-- C5: every trade the inferrer produces has strictly positive
token_amount and native_amount (absolute values of deltas that are nonzero
at construction time), whatever the signs of the input deltas. -/
theorem trade_amounts_positive (c : Nat) (now : Int) (tx : Tx) (t : Trade)
    (h : parseSwapFromTransaction c now tx = some t) :
    0 < t.token_amount ∧ 0 < t.native_amount := by
  rw [parse_spec] at h
  by_cases hc : assetChangeOf tx = 0 ∨ xntChangeOf tx = 0
  · simp [hc] at h
  · simp only [hc, if_false, ite_false, Option.some.injEq] at h
    subst h
    push_neg at hc
    exact ⟨abs_pos.2 hc.1, abs_pos.2 hc.2⟩

/-- Witness for the positivity claim at a concrete LP removal. -/
theorem trade_amounts_positive_witness :
    0 < tradeLpRemove.token_amount ∧ 0 < tradeLpRemove.native_amount :=
  trade_amounts_positive 5 0 txLpRemove tradeLpRemove (by
    have hp := parse_spec 5 0 txLpRemove
    rw [assetChange_txLpRemove_eval, xntChange_txLpRemove_eval] at hp
    norm_num [classifyOf, sigOf, tsOf, traderOf, traderAddressOf, jsOrString, txLpRemove,
      tradeLpRemove] at hp ⊢
    exact hp)

/-! ### Claim theorems: Retry/Backoff Wrapper -/

/-- Full schedule description of the retry loop, by induction on the
remaining retry budget. -/
theorem withRetryGo_spec {α : Type} (fn : Nat → Except String α) (base : Nat) :
    ∀ (remaining attempt : Nat),
      (withRetryGo fn base attempt remaining).2.length ≤ remaining ∧
      (withRetryGo fn base attempt remaining).2 =
        (List.range (withRetryGo fn base attempt remaining).2.length).map
          (fun k => base * 2 ^ (attempt + k)) ∧
      (∀ k, k < (withRetryGo fn base attempt remaining).2.length →
        ∃ e, fn (attempt + k) = Except.error e ∧ is429 e = true) ∧
      (withRetryGo fn base attempt remaining).1 =
        fn (attempt + (withRetryGo fn base attempt remaining).2.length) := by
  intro remaining
  induction remaining with
  | zero =>
    intro attempt
    cases hf : fn attempt with
    | ok a => simp [withRetryGo, hf]
    | error e => simp [withRetryGo, hf]
  | succ r ih =>
    intro attempt
    cases hf : fn attempt with
    | ok a => simp [withRetryGo, hf]
    | error e =>
      by_cases h9 : is429 e
      · obtain ⟨ih1, ih2, ih3, ih4⟩ := ih (attempt + 1)
        refine ⟨?_, ?_, ?_, ?_⟩
        · simp only [withRetryGo, hf, h9, if_true, List.length_cons]
          exact Nat.succ_le_succ ih1
        · simp only [withRetryGo, hf, h9, if_true, List.length_cons]
          rw [List.range_succ_eq_map]
          simp only [List.map_cons, List.map_map]
          rw [List.cons_eq_cons]
          refine ⟨by rw [Nat.add_zero], ?_⟩
          conv_lhs => rw [ih2]
          apply List.map_congr_left
          intro a _
          simp only [Function.comp_apply, Nat.succ_eq_add_one]
          congr 2
          omega
        · intro k hk
          simp only [withRetryGo, hf, h9, if_true, List.length_cons] at hk
          cases k with
          | zero => exact ⟨e, by simpa using hf, h9⟩
          | succ j =>
            obtain ⟨e2, he2, he9⟩ := ih3 j (by omega)
            refine ⟨e2, ?_, he9⟩
            rw [show attempt + (j+1) = attempt + 1 + j by omega]
            exact he2
        · simp only [withRetryGo, hf, h9, if_true, List.length_cons]
          rw [ih4]
          congr 1
          omega
      · simp [withRetryGo, hf, h9]

/-- C6: the retry wrapper (default options: ceiling 6 retries, base delay
500ms) sleeps at most 6 times; the delay before retry attempt k is exactly
500·2^k; every retry is preceded by a rate-limit-classified failure
(message containing "429" or "Too Many Requests"), so a non-rate-limit
failure propagates immediately with no retry and no delay; and the final
outcome is the outcome of the last call made. -/
theorem withRetry_rate_limit_only {α : Type} (fn : Nat → Except String α) :
    (withRetry fn).2.length ≤ 6 ∧
    (withRetry fn).2 = (List.range (withRetry fn).2.length).map (fun k => 500 * 2 ^ k) ∧
    (∀ k, k < (withRetry fn).2.length → ∃ e, fn k = Except.error e ∧ is429 e = true) ∧
    (withRetry fn).1 = fn (withRetry fn).2.length ∧
    (∀ e, fn 0 = Except.error e → is429 e = false →
      withRetry fn = (Except.error e, [])) := by
  have h := withRetryGo_spec fn 500 6 0
  rw [show withRetryGo fn 500 0 6 = withRetry fn from rfl] at h
  simp only [Nat.zero_add] at h
  obtain ⟨h1, h2, h3, h4⟩ := h
  refine ⟨h1, h2, h3, h4, ?_⟩
  intro e he h9
  have hlen : (withRetry fn).2.length = 0 := by
    by_contra hne
    obtain ⟨e2, he2, h92⟩ := h3 0 (by omega)
    rw [he] at he2
    cases he2
    rw [h92] at h9
    cases h9
  have hnil : (withRetry fn).2 = [] := List.length_eq_zero.1 hlen
  have hres : (withRetry fn).1 = Except.error e := by rw [h4, hlen, he]
  calc withRetry fn = ((withRetry fn).1, (withRetry fn).2) := rfl
    _ = (Except.error e, []) := by rw [hres, hnil]


/-- Witness: an operation that rate-limits twice then succeeds; the
wrapper retries with delays 500ms and 1000ms and returns the success. -/
theorem withRetry_rate_limit_only_witness :
    (withRetry fnRateLimited).2.length ≤ 6 ∧
    (withRetry fnRateLimited).2 =
      (List.range (withRetry fnRateLimited).2.length).map (fun k => 500 * 2 ^ k) ∧
    (∀ k, k < (withRetry fnRateLimited).2.length →
      ∃ e, fnRateLimited k = Except.error e ∧ is429 e = true) ∧
    (withRetry fnRateLimited).1 = fnRateLimited (withRetry fnRateLimited).2.length ∧
    (∀ e, fnRateLimited 0 = Except.error e → is429 e = false →
      withRetry fnRateLimited = (Except.error e, [])) :=
  withRetry_rate_limit_only fnRateLimited

/-! ### Claim theorems: Broadcast Hub history buffer -/

/-- Helper: one publish never leaves more than 8000 entries. -/
theorem broadcastTrade_length_le (h : List Trade) (t : Trade) :
    (broadcastTrade h t).length ≤ 8000 := by
  simp only [broadcastTrade]
  by_cases hl : 8000 < (t :: h).length
  · rw [if_pos hl, List.length_take]
    exact min_le_left _ _
  · rw [if_neg hl]
    exact not_lt.1 hl

/-- C7: a publish inserts the new trade at the front and keeps exactly the
first 8000 entries of the result, so eviction removes entries from the
oldest end only; and along any sequence of publishes starting from the
empty buffer, the history length never exceeds the fixed capacity 8000. -/
theorem broadcast_history_bounded :
    (∀ (h : List Trade) (t : Trade),
      (broadcastTrade h t).length ≤ 8000 ∧
      broadcastTrade h t = (t :: h).take 8000) ∧
    ∀ (ts : List Trade), (ts.foldl broadcastTrade []).length ≤ 8000 := by
  constructor
  · intro h t
    refine ⟨broadcastTrade_length_le h t, ?_⟩
    simp only [broadcastTrade]
    by_cases hl : 8000 < (t :: h).length
    · rw [if_pos hl]
    · rw [if_neg hl, List.take_of_length_le (not_lt.1 hl)]
  · have key : ∀ (ts : List Trade) (init : List Trade), init.length ≤ 8000 →
        (ts.foldl broadcastTrade init).length ≤ 8000 := by
      intro ts
      induction ts with
      | nil => intro init h; simpa using h
      | cons t rest ih =>
        intro init _
        exact ih (broadcastTrade init t) (broadcastTrade_length_le init t)
    intro ts
    exact key ts [] (by simp)

/-! ### Claim theorems: Holder-Count Aggregator -/

/-- Helper: a successful aggregator call always leaves the requested mint
as the cache key (both on a cache hit and after a recompute). -/
theorem holders_mint_of_ok (chain : Chain) (now : Int) (cache : HoldersCache)
    (mintStr : String) (c1 : HoldersCache)
    (h : getToken2022HoldersCached chain now cache mintStr = Except.ok c1) :
    c1.mint = some mintStr := by
  unfold getToken2022HoldersCached at h
  split_ifs at h with hhit hex
  · obtain rfl := Except.ok.inj h
    exact hhit.1
  · obtain rfl := Except.ok.inj h
    rfl

/-- C8: after any successful call that yielded payload `c1` for an asset
identifier, a second call within the 10-minute TTL for the same identifier
returns the identical payload, including `updatedAt` — against an
arbitrary chain (`chain2`), which shows no recomputation happens; a call
after TTL expiry recomputes and returns a payload whose `updatedAt` is the
new call time; a call for a different asset identifier recomputes
likewise. -/
theorem holders_cache_ttl (chain chain2 : Chain) (c0 c1 : HoldersCache)
    (mintStr : String) (now1 now2 : Int)
    (h1 : getToken2022HoldersCached chain now1 c0 mintStr = Except.ok c1) :
    (now2 - c1.updatedAt < HOLDERS_CACHE_TTL_MS →
      getToken2022HoldersCached chain2 now2 c1 mintStr = Except.ok c1) ∧
    (¬ now2 - c1.updatedAt < HOLDERS_CACHE_TTL_MS → chain2.mintExists mintStr = true →
      getToken2022HoldersCached chain2 now2 c1 mintStr =
        Except.ok (recomputeHolders chain2 now2 mintStr) ∧
      (recomputeHolders chain2 now2 mintStr).updatedAt = now2) ∧
    (∀ mint2, mint2 ≠ mintStr → chain2.mintExists mint2 = true →
      getToken2022HoldersCached chain2 now2 c1 mint2 =
        Except.ok (recomputeHolders chain2 now2 mint2) ∧
      (recomputeHolders chain2 now2 mint2).updatedAt = now2) := by
  have hm := holders_mint_of_ok chain now1 c0 mintStr c1 h1
  refine ⟨?_, ?_, ?_⟩
  · intro httl
    unfold getToken2022HoldersCached
    rw [if_pos ⟨hm, httl⟩]
  · intro httl hex
    refine ⟨?_, rfl⟩
    unfold getToken2022HoldersCached
    rw [if_neg (fun hc => httl hc.2), if_neg (by simp [hex])]
  · intro mint2 hne hex
    refine ⟨?_, rfl⟩
    unfold getToken2022HoldersCached
    have hcond : ¬(c1.mint = some mint2 ∧ now2 - c1.updatedAt < HOLDERS_CACHE_TTL_MS) := by
      intro hc
      rw [hm] at hc
      exact hne (Option.some.inj hc.1).symm
    rw [if_neg hcond, if_neg (by simp [hex])]

/-- Helper: evaluating the first (miss) call of the witness scenario. -/
theorem holders_first_call_eval :
    getToken2022HoldersCached chainEx 100 emptyHoldersCache "M1" =
      Except.ok ⟨some "M1", 2, 3, 1, 100⟩ := by
  have r3 : readU64LE [3,0,0,0,0,0,0,0] = 3 := by decide
  have r0 : readU64LE [0,0,0,0,0,0,0,0] = 0 := by decide
  have r1 : readU64LE [1,0,0,0,0,0,0,0] = 1 := by decide
  simp [getToken2022HoldersCached, chainEx, emptyHoldersCache, recomputeHolders,
    HOLDERS_CACHE_TTL_MS, List.filter, r3, r0, r1]

/-- Witness: a second call 100ms later for the same mint returns the
cached payload unchanged, `updatedAt` included. -/
theorem holders_cache_ttl_witness :
    getToken2022HoldersCached chainEx 200 ⟨some "M1", 2, 3, 1, 100⟩ "M1" =
      Except.ok ⟨some "M1", 2, 3, 1, 100⟩ :=
  (holders_cache_ttl chainEx chainEx emptyHoldersCache ⟨some "M1", 2, 3, 1, 100⟩
    "M1" 100 200 holders_first_call_eval).1 (by norm_num [HOLDERS_CACHE_TTL_MS])

/-! ### Claim theorems: Historical Backfill pause cadence -/

/-- Helper: `txNoTrade` is parsed to no trade for every id counter and
clock value (its tracked-asset delta is zero). -/
theorem parse_txNoTrade_none (c : Nat) (now : Int) :
    parseSwapFromTransaction c now txNoTrade = none := by
  rw [parse_spec]
  simp [assetChange_txNoTrade_eval]

/-- Counterexample to C9 as stated: 25 transactions are fetched and fed
through the inferrer (each one fully processed by the loop body), yet no
pause is inserted, because the loop's pause counter advances only when a
transaction yields a trade — not once per processed transaction. -/
theorem backfill_pause_cadence_cex :
    (List.replicate 25 (some txNoTrade)).length = 25 ∧
    (runBackfillLoop 0 (List.replicate 25 (some txNoTrade)) initialBackfillState).sleeps = 0 := by
  have hstep : ∀ st : BackfillState, backfillStep 0 st (some txNoTrade) = st := by
    intro st
    simp [backfillStep, parse_txNoTrade_none]
  have hfold : ∀ (n : Nat) (st : BackfillState),
      List.foldl (backfillStep 0) st (List.replicate n (some txNoTrade)) = st := by
    intro n
    induction n with
    | zero => intro st; rfl
    | succ k ih =>
      intro st
      rw [List.replicate_succ, List.foldl_cons, hstep]
      exact ih st
  refine ⟨by simp, ?_⟩
  rw [runBackfillLoop, hfold]
  rfl

/-- C9 (amended): the pause cadence is counted over transactions that
yield a trade: after any input sequence, the number of 120ms pauses taken
is exactly the number of parsed trades divided by 25 (a pause fires
whenever that count reaches a multiple of 25), and the parsed-trade list
grows in lockstep with the loop's `processed` counter. -/
theorem backfill_pause_per_25_trades (now : Int) (txs : List (Option Tx)) :
    (runBackfillLoop now txs initialBackfillState).sleeps =
      (runBackfillLoop now txs initialBackfillState).processed / 25 ∧
    (runBackfillLoop now txs initialBackfillState).parsedTrades.length =
      (runBackfillLoop now txs initialBackfillState).processed := by
  have key : ∀ (l : List (Option Tx)) (st : BackfillState),
      st.sleeps = st.processed / 25 → st.parsedTrades.length = st.processed →
      (List.foldl (backfillStep now) st l).sleeps =
        (List.foldl (backfillStep now) st l).processed / 25 ∧
      (List.foldl (backfillStep now) st l).parsedTrades.length =
        (List.foldl (backfillStep now) st l).processed := by
    intro l
    induction l with
    | nil => intro st h1 h2; exact ⟨h1, h2⟩
    | cons otx rest ih =>
      intro st h1 h2
      rw [List.foldl_cons]
      apply ih
      · cases otx with
        | none => simpa [backfillStep]
        | some tx =>
          cases hp : parseSwapFromTransaction st.tradeIdCounter now tx with
          | none => simpa [backfillStep, hp]
          | some tr =>
            simp only [backfillStep, hp]
            split_ifs with hd <;> omega
      · cases otx with
        | none => simpa [backfillStep]
        | some tx =>
          cases hp : parseSwapFromTransaction st.tradeIdCounter now tx with
          | none => simpa [backfillStep, hp]
          | some tr =>
            simp only [backfillStep, hp, List.length_append, List.length_cons,
              List.length_nil]
            omega
  exact key txs initialBackfillState rfl rfl

/-! ### Claim theorems: entries present in only one balance list -/

/-- C10: the trader-owned delta sums range over pre entries matched by
account index in the post list: appending a pre-only entry (no post entry
shares its index) or a post-only entry (no pre entry shares its index)
leaves the computed mint delta unchanged, for any mint — in particular for
the tracked secondary asset and the SPL base asset. -/
theorem splMintChange_unmatched_entries (mint trader : String)
    (preL postL : List TokenBalance) (p q : TokenBalance)
    (hp : p.accountIndex ∉ postL.map TokenBalance.accountIndex)
    (hq : q.accountIndex ∉ preL.map TokenBalance.accountIndex) :
    splMintChange mint trader (preL ++ [p]) postL = splMintChange mint trader preL postL ∧
    splMintChange mint trader preL (postL ++ [q]) = splMintChange mint trader preL postL := by
  constructor
  · have hlook : postLookup postL p.accountIndex = none := by
      rw [postLookup, List.getLast?_eq_none_iff, List.filter_eq_nil]
      intro a ha
      simp only [beq_iff_eq]
      intro he
      exact hp (List.mem_map.2 ⟨a, ha, he⟩)
    simp [splMintChange, List.map_append, List.sum_append, tokenEntryDelta, hlook]
  · unfold splMintChange
    congr 1
    apply List.map_congr_left
    intro pre hpre
    have hne : pre.accountIndex ≠ q.accountIndex := by
      intro he
      exact hq (he ▸ List.mem_map_of_mem TokenBalance.accountIndex hpre)
    have hlk : postLookup (postL ++ [q]) pre.accountIndex = postLookup postL pre.accountIndex := by
      rw [postLookup, postLookup, List.filter_append]
      have hfq : List.filter (fun e => e.accountIndex == pre.accountIndex) [q] = [] := by
        have hb : (q.accountIndex == pre.accountIndex) = false := by
          simp only [beq_eq_false_iff_ne, ne_eq]
          intro he
          exact hne he.symm
        simp [List.filter_cons, hb]
      rw [hfq, List.append_nil]
    simp only [tokenEntryDelta, hlk]

/-- Witness: with a matched one-entry pair, appending a pre-only entry
(index 7) or a post-only entry (index 9) leaves both sums unchanged. -/
theorem splMintChange_unmatched_entries_witness :
    splMintChange PEPE_MINT "W" (preW ++ [entryPreOnly]) postW =
      splMintChange PEPE_MINT "W" preW postW ∧
    splMintChange PEPE_MINT "W" preW (postW ++ [entryPostOnly]) =
      splMintChange PEPE_MINT "W" preW postW :=
  splMintChange_unmatched_entries PEPE_MINT "W" preW postW entryPreOnly entryPostOnly
    (by decide) (by decide)

end PepeTracker
